import Mathlib

/-!
Shallow embedding of the public-node core of rs-wnfs
(`src/wnfs/src/public/node/node.rs` and `src/wnfs/src/utils/common.rs`).

CIDs are opaque, comparable addresses produced by the block store; they are
modelled as natural numbers.  The block store, the metadata type, and the
concrete `PublicFile` / `PublicDirectory` structures are external to the two
source files shown; where a definition is reconstructed from the spec rather
than from source code it says so in its doc comment.
-/

/-- A content identifier: an opaque, totally-ordered, hashable address. -/
abbrev Cid := Nat

/-- Error kinds of the node core (`FsError` variants used by `node.rs` and
`common.rs`). -/
inductive FsError where
  | NotADirectory
  | NotAFile
  | NotFound
  | DecodeError
  | InvalidPath
  deriving DecidableEq

/-- Modelled from the spec: node metadata is an external collaborator whose
only relevant capability here is "has a modification time that can be
upserted"; represented as creation and modification timestamps. -/
structure Metadata where
  created : Int
  modified : Int
  deriving DecidableEq

/-- Modelled from the spec: `Metadata::upsert_mtime` (defined in the external
`wnfs-common` crate) sets the modification timestamp. -/
def Metadata.upsert_mtime (m : Metadata) (time : Int) : Metadata :=
  { m with modified := time }

/-- Modelled from the spec: `PublicFile` is declared outside the two shown
source files; per the spec's data model a file holds metadata, a content
reference CID (`userland`), a previous-version set, and a write-once
memoized-CID cell (`persisted_as`, modelled as `Option Cid`). -/
structure PublicFile where
  persisted_as : Option Cid
  metadata : Metadata
  userland : Cid
  previous : Finset Cid
  deriving DecidableEq

/-- Modelled from the spec: `PublicDirectory` is declared outside the two
shown source files; a directory holds metadata, a children mapping from name
to child reference, a previous-version set, and the memoized-CID cell.  The
children mapping is modelled with already-persisted child references (bare
CIDs), the regime the spec's round-trip property quantifies over; links to
in-memory child nodes live outside this model. -/
structure PublicDirectory where
  persisted_as : Option Cid
  metadata : Metadata
  userland : List (String × Cid)
  previous : Finset Cid
  deriving DecidableEq

/-- The node sum type of `node.rs`: a tagged union of exactly two variants. -/
inductive PublicNode where
  | File : PublicFile → PublicNode
  | Dir : PublicDirectory → PublicNode
  deriving DecidableEq

/-- Wire record for a file: metadata, content CID, previous set.  The
memoized-CID cell is a cache and is not serialized. -/
structure PublicFileSerializable where
  metadata : Metadata
  userland : Cid
  previous : Finset Cid
  deriving DecidableEq

/-- Wire record for a directory: metadata, children mapping (names to CIDs),
previous set. -/
structure PublicDirectorySerializable where
  metadata : Metadata
  userland : List (String × Cid)
  previous : Finset Cid
  deriving DecidableEq

/-- The tagged wire form `PublicNodeSerializable` that the `Deserialize` and
`AsyncSerialize` impls of `node.rs` dispatch over. -/
inductive PublicNodeSerializable where
  | File : PublicFileSerializable → PublicNodeSerializable
  | Dir : PublicDirectorySerializable → PublicNodeSerializable
  deriving DecidableEq

/-- A stored block: either a decodable tagged node record, or bytes that do
not decode as one (modelled abstractly by a numeric blob). -/
inductive Block where
  | valid : PublicNodeSerializable → Block
  | invalid : Nat → Block
  deriving DecidableEq

/-- Modelled from the spec: the external content store, a content-addressable
map from CID to block together with its content-deterministic hash function
(same serialized value, same CID). -/
structure BlockStore where
  hash : PublicNodeSerializable → Cid
  blocks : Cid → Option Block

/-- Modelled from the spec: `put_serializable` stores the serialized value
under its content-determined CID and returns that CID. -/
def BlockStore.putSerializable (st : BlockStore) (s : PublicNodeSerializable) :
    Cid × BlockStore :=
  (st.hash s,
   { st with blocks := fun c => if c = st.hash s then some (Block.valid s) else st.blocks c })

/-- Decoding a fetched block into the tagged wire form; garbage bytes fail. -/
def decodeBlock : Block → Option PublicNodeSerializable
  | Block.valid s => some s
  | Block.invalid _ => none

/-- Modelled from the spec: `get_deserializable` fetches the block at `cid`
and decodes it, failing with `NotFound` when absent and `DecodeError` when the
bytes do not decode. -/
def BlockStore.getDeserializable (st : BlockStore) (cid : Cid) :
    Except FsError PublicNodeSerializable :=
  match st.blocks cid with
  | none => Except.error FsError.NotFound
  | some b =>
    match decodeBlock b with
    | none => Except.error FsError.DecodeError
    | some s => Except.ok s

/-- Projection of a file to its wire record (drops the cache cell). -/
def PublicFile.to_serializable (f : PublicFile) : PublicFileSerializable :=
  { metadata := f.metadata, userland := f.userland, previous := f.previous }

/-- Projection of a directory to its wire record (drops the cache cell). -/
def PublicDirectory.to_serializable (d : PublicDirectory) : PublicDirectorySerializable :=
  { metadata := d.metadata, userland := d.userland, previous := d.previous }

/-- Wire form of a node, dispatching on the variant as the `AsyncSerialize`
impl of `node.rs` does. -/
def PublicNode.to_serializable : PublicNode → PublicNodeSerializable
  | PublicNode.File f => PublicNodeSerializable.File f.to_serializable
  | PublicNode.Dir d => PublicNodeSerializable.Dir d.to_serializable

/-- Modelled from the spec: `PublicFile::from_serializable` (declared outside
the shown files) rebuilds the in-memory value from the wire record; the
reconstructed value has a fresh, unset memoized-CID cell. -/
def PublicFile.from_serializable (s : PublicFileSerializable) : PublicFile :=
  { persisted_as := none, metadata := s.metadata, userland := s.userland,
    previous := s.previous }

/-- Modelled from the spec: `PublicDirectory::from_serializable`, as for
files. -/
def PublicDirectory.from_serializable (s : PublicDirectorySerializable) : PublicDirectory :=
  { persisted_as := none, metadata := s.metadata, userland := s.userland,
    previous := s.previous }

/-- The `Deserialize` impl for `PublicNode` (`node.rs` lines 284-300):
deserialize the tagged form, then rebuild the matching variant. -/
def PublicNode.from_serializable : PublicNodeSerializable → PublicNode
  | PublicNodeSerializable.File s => PublicNode.File (PublicFile.from_serializable s)
  | PublicNodeSerializable.Dir s => PublicNode.Dir (PublicDirectory.from_serializable s)

/-- Modelled from the spec: `PublicFile::store` (declared outside the shown
files) answers from the memoized-CID cell when it is set; otherwise it
serializes the file, puts it in the store, memoizes the returned CID, and
hands it back.  The updated value and store are returned explicitly because
the embedding is pure. -/
def PublicFile.store (f : PublicFile) (st : BlockStore) :
    Cid × PublicFile × BlockStore :=
  match f.persisted_as with
  | some c => (c, f, st)
  | none =>
    let p := st.putSerializable (PublicNodeSerializable.File f.to_serializable)
    (p.1, { f with persisted_as := some p.1 }, p.2)

/-- Modelled from the spec: `PublicDirectory::store`, as for files (children
here are already-persisted CID references, so no recursive persistence
remains to be done). -/
def PublicDirectory.store (d : PublicDirectory) (st : BlockStore) :
    Cid × PublicDirectory × BlockStore :=
  match d.persisted_as with
  | some c => (c, d, st)
  | none =>
    let p := st.putSerializable (PublicNodeSerializable.Dir d.to_serializable)
    (p.1, { d with persisted_as := some p.1 }, p.2)

/-- `PublicNode::store` (`node.rs` lines 235-240): dispatch to the active
variant's store. -/
def PublicNode.store (n : PublicNode) (st : BlockStore) :
    Cid × PublicNode × BlockStore :=
  match n with
  | PublicNode.File f =>
    let p := f.store st
    (p.1, PublicNode.File p.2.1, p.2.2)
  | PublicNode.Dir d =>
    let p := d.store st
    (p.1, PublicNode.Dir p.2.1, p.2.2)

/-- `PublicNode::load` (`node.rs` lines 244-246): fetch and decode the tagged
form at `cid`, rebuilding the matching variant. -/
def PublicNode.load (cid : Cid) (st : BlockStore) : Except FsError PublicNode :=
  match st.getDeserializable cid with
  | Except.error e => Except.error e
  | Except.ok s => Except.ok (PublicNode.from_serializable s)

/-- The `RemembersCid` impl for `PublicNode` (`node.rs` lines 317-324):
expose the active variant's memoized-CID cell. -/
def PublicNode.persisted_as : PublicNode → Option Cid
  | PublicNode.File f => f.persisted_as
  | PublicNode.Dir d => d.persisted_as

/-- Modelled from the spec: `Clone` for `PublicFile` (declared outside the
shown files) copies the content fields and gives the copy a fresh, unset
memoized-CID cell, since the clone has not been persisted under any CID. -/
def PublicFile.cloneImpl (f : PublicFile) : PublicFile :=
  { f with persisted_as := none }

/-- Modelled from the spec: `Clone` for `PublicDirectory`, as for files. -/
def PublicDirectory.cloneImpl (d : PublicDirectory) : PublicDirectory :=
  { d with persisted_as := none }

/-- `PublicNode::update_previous` (`node.rs` lines 105-118): clone the inner
value, replace its previous set by the collected (deduplicated, ordered) set
of the given CIDs, and wrap it in a fresh handle. -/
def PublicNode.update_previous (n : PublicNode) (cids : List Cid) : PublicNode :=
  match n with
  | PublicNode.File f => PublicNode.File { f.cloneImpl with previous := cids.toFinset }
  | PublicNode.Dir d => PublicNode.Dir { d.cloneImpl with previous := cids.toFinset }

/-- `PublicNode::get_previous` (`node.rs` lines 139-144). -/
def PublicNode.get_previous : PublicNode → Finset Cid
  | PublicNode.File f => f.previous
  | PublicNode.Dir d => d.previous

/-- `PublicNode::as_dir` (`node.rs` lines 160-165). -/
def PublicNode.as_dir : PublicNode → Except FsError PublicDirectory
  | PublicNode.Dir d => Except.ok d
  | _ => Except.error FsError.NotADirectory

/-- `PublicNode::as_file` (`node.rs` lines 190-195). -/
def PublicNode.as_file : PublicNode → Except FsError PublicFile
  | PublicNode.File f => Except.ok f
  | _ => Except.error FsError.NotAFile

/-- `PublicNode::is_dir` (`node.rs` lines 211-213). -/
def PublicNode.is_dir : PublicNode → Bool
  | PublicNode.Dir _ => true
  | _ => false

/-- `PublicNode::is_file` (`node.rs` lines 230-232). -/
def PublicNode.is_file : PublicNode → Bool
  | PublicNode.File _ => true
  | _ => false

/-- The `AsyncSerialize` impl for `PublicNode` (`node.rs` lines 304-315): a
file serializes purely, without being given the store; a directory takes the
asynchronous path that passes the store along for recursive child
persistence.  The store is threaded explicitly so that its (non-)use is
visible. -/
def PublicDirectory.async_serialize (d : PublicDirectory) (st : BlockStore) :
    PublicNodeSerializable × BlockStore :=
  (PublicNodeSerializable.Dir d.to_serializable, st)

/-- Dispatch of `AsyncSerialize for PublicNode`: `File` goes to the plain
serde path (the store is not passed), `Dir` to the store-taking async path. -/
def PublicNode.async_serialize (n : PublicNode) (st : BlockStore) :
    PublicNodeSerializable × BlockStore :=
  match n with
  | PublicNode.File f => (PublicNodeSerializable.File f.to_serializable, st)
  | PublicNode.Dir d => d.async_serialize st

/-- Modelled from the spec: value ("field-wise") equality of files, the
`PartialEq` of `PublicFile` declared outside the shown files.  It compares
the content fields; the memoized-CID cell is a cache and takes no part
(content-identical values may hold distinct cells). -/
def PublicFile.fieldEqB (a b : PublicFile) : Bool :=
  decide (a.metadata = b.metadata) && decide (a.userland = b.userland) &&
    decide (a.previous = b.previous)

/-- Modelled from the spec: value equality of directories, as for files. -/
def PublicDirectory.fieldEqB (a b : PublicDirectory) : Bool :=
  decide (a.metadata = b.metadata) && decide (a.userland = b.userland) &&
    decide (a.previous = b.previous)

/-- Pure field-wise equality of nodes: same variant and equal content
fields; cross-variant comparisons are unequal. -/
def PublicNode.fieldEqB : PublicNode → PublicNode → Bool
  | PublicNode.File a, PublicNode.File b => a.fieldEqB b
  | PublicNode.Dir a, PublicNode.Dir b => a.fieldEqB b
  | _, _ => false

/-- A shared-ownership handle to a node: the variant tag plus the heap
address of the `Rc` pointee. -/
inductive NodeRef where
  | File : Nat → NodeRef
  | Dir : Nat → NodeRef
  deriving DecidableEq

/-- The node value a handle denotes, given the file and directory heaps. -/
def nodeRefVal (Hf : Nat → PublicFile) (Hd : Nat → PublicDirectory) :
    NodeRef → PublicNode
  | NodeRef.File a => PublicNode.File (Hf a)
  | NodeRef.Dir a => PublicNode.Dir (Hd a)

/-- The `PartialEq` impl for `PublicNode` (`node.rs` lines 258-270): equal
variants with either pointer-equal handles (`Rc::ptr_eq`, the fast path) or
value-equal pointees; cross-variant pairs are unequal. -/
def PublicNode.eqImpl (Hf : Nat → PublicFile) (Hd : Nat → PublicDirectory) :
    NodeRef → NodeRef → Bool
  | NodeRef.File a, NodeRef.File b => decide (a = b) || (Hf a).fieldEqB (Hf b)
  | NodeRef.Dir a, NodeRef.Dir b => decide (a = b) || (Hd a).fieldEqB (Hd b)
  | _, _ => false

/-- Reference-counted heap of values of one variant: the values, the strong
counts, and the next fresh address (addresses at or beyond `next` are
unallocated). -/
structure RcState (α : Type) where
  vals : Nat → α
  counts : Nat → Nat
  next : Nat

/-- `Rc::make_mut` followed by a field mutation: with a unique owner the
value is mutated in place; when shared, the pointee is cloned (via the
variant's `Clone`, `cl`) to a fresh address, the mutation is applied to the
private copy, and the handle is redirected there while other owners keep the
original. -/
def makeMut {α : Type} (st : RcState α) (a : Nat) (cl : α → α) (f : α → α) :
    RcState α × Nat :=
  if st.counts a = 1 then
    ({ st with vals := Function.update st.vals a (f (st.vals a)) }, a)
  else
    ({ vals := Function.update st.vals st.next (f (cl (st.vals a))),
       counts := fun i => if i = st.next then 1 else if i = a then st.counts a - 1 else st.counts i,
       next := st.next + 1 }, st.next)

/-- The two heaps backing `Rc<PublicFile>` and `Rc<PublicDirectory>`
handles. -/
structure NodeHeap where
  files : RcState PublicFile
  dirs : RcState PublicDirectory

/-- `PublicNode::upsert_mtime` (`node.rs` lines 71-80) over the heap model:
`Rc::make_mut` on the active variant, then `metadata.upsert_mtime`.  Returns
the possibly-redirected handle. -/
def NodeHeap.upsert_mtime (h : NodeHeap) (r : NodeRef) (time : Int) :
    NodeHeap × NodeRef :=
  match r with
  | NodeRef.File a =>
    let p := makeMut h.files a PublicFile.cloneImpl
      (fun f => { f with metadata := f.metadata.upsert_mtime time })
    ({ h with files := p.1 }, NodeRef.File p.2)
  | NodeRef.Dir a =>
    let p := makeMut h.dirs a PublicDirectory.cloneImpl
      (fun d => { d with metadata := d.metadata.upsert_mtime time })
    ({ h with dirs := p.1 }, NodeRef.Dir p.2)

/-- The value observed through a handle. -/
def NodeHeap.observe (h : NodeHeap) : NodeRef → PublicNode
  | NodeRef.File a => PublicNode.File (h.files.vals a)
  | NodeRef.Dir a => PublicNode.Dir (h.dirs.vals a)

/-- Strong count of the value a handle points at. -/
def NodeHeap.countAt (h : NodeHeap) : NodeRef → Nat
  | NodeRef.File a => h.files.counts a
  | NodeRef.Dir a => h.dirs.counts a

/-- A handle is valid when its address is an allocated one of its heap. -/
def NodeHeap.validAt (h : NodeHeap) : NodeRef → Prop
  | NodeRef.File a => a < h.files.next
  | NodeRef.Dir a => a < h.dirs.next

/-- `split_last` (`utils/common.rs` lines 18-23): split a path-segment list
into everything but the last segment and the last segment; the empty list is
an invalid path. -/
def split_last (path_segments : List String) :
    Except FsError (List String × String) :=
  match path_segments.getLast? with
  | some lastSeg => Except.ok (path_segments.dropLast, lastSeg)
  | none => Except.error FsError.InvalidPath

/-- Concrete file node used to witness the round-trip theorem. -/
def c1Node : PublicNode := PublicNode.File ⟨none, ⟨0, 0⟩, 5, ∅⟩

/-- Concrete empty block store used by witnesses. -/
def c1Store : BlockStore := ⟨fun _ => 3, fun _ => none⟩

/-- Concrete heap with one file value shared by two handles (strong count
two), used to witness copy-on-write isolation. -/
def c6Heap : NodeHeap :=
  ⟨⟨fun _ => ⟨none, ⟨0, 0⟩, 0, ∅⟩, fun i => if i = 0 then 2 else 0, 1⟩,
   ⟨fun _ => ⟨none, ⟨0, 0⟩, [], ∅⟩, fun _ => 0, 0⟩⟩

/-- Concrete file node with a set memoized-CID cell, used to witness the
cell-freshness theorem. -/
def c7Node : PublicNode := PublicNode.File ⟨some 4, ⟨0, 0⟩, 5, ∅⟩

/-- Concrete store holding an undecodable block at CID 0, used to witness
the load-error theorem. -/
def c9StoreA : BlockStore :=
  ⟨fun _ => 0, fun c => if c = 0 then some (Block.invalid 9) else none⟩

/-- Concrete store holding a valid file record at every CID, used to witness
the load-success case. -/
def c9StoreB : BlockStore :=
  ⟨fun _ => 0, fun _ => some (Block.valid (PublicNodeSerializable.File ⟨⟨0, 0⟩, 5, ∅⟩))⟩

/-- Claim C10: `split_last` applied to a non-empty list of path segments
returns the pair (all segments except the last, the last segment), and
applied to the empty list fails with an `InvalidPath` error; being a total
function it never panics. -/
theorem c10_split_last_spec (rest : List String) (lastSeg : String) :
    split_last (rest ++ [lastSeg]) = Except.ok (rest, lastSeg) ∧
    split_last ([] : List String) = Except.error FsError.InvalidPath := by
  constructor
  · simp [split_last, List.getLast?_concat, List.dropLast_concat]
  · rfl

/-- Claim C3: for every node exactly one of `as_dir` and `as_file` succeeds:
on a `Dir` node `as_dir` returns the directory and `as_file` fails with
`NotAFile`; on a `File` node `as_file` returns the file and `as_dir` fails
with `NotADirectory`; `is_dir` / `is_file` are true exactly for the variant
whose cast succeeds; all four are total functions, so none panics. -/
theorem c3_narrowing_exclusivity (f : PublicFile) (d : PublicDirectory) :
    (PublicNode.File f).as_file = Except.ok f ∧
    (PublicNode.File f).as_dir = Except.error FsError.NotADirectory ∧
    (PublicNode.File f).is_file = true ∧
    (PublicNode.File f).is_dir = false ∧
    (PublicNode.Dir d).as_dir = Except.ok d ∧
    (PublicNode.Dir d).as_file = Except.error FsError.NotAFile ∧
    (PublicNode.Dir d).is_dir = true ∧
    (PublicNode.Dir d).is_file = false :=
  ⟨rfl, rfl, rfl, rfl, rfl, rfl, rfl, rfl⟩

/-- Claim C5: `update_previous` replaces the previous-version set by the
deduplicated, order-normalized set of the given CID sequence; in particular
`update_previous [x, y, x]` yields the set `{x, y}`. -/
theorem c5_update_previous_dedup (n : PublicNode) (cids : List Cid) (x y : Cid) :
    (n.update_previous cids).get_previous = cids.toFinset ∧
    (n.update_previous [x, y, x]).get_previous = ({x, y} : Finset Cid) := by
  have hall : ∀ (m : PublicNode) (cs : List Cid),
      (m.update_previous cs).get_previous = cs.toFinset := by
    intro m cs
    cases m <;> rfl
  refine ⟨hall n cids, ?_⟩
  rw [hall]
  ext z
  simp [or_comm]

/-- Claim C2: storing the same in-memory node value twice yields the same
CID both times; the second store is a cache hit on the memoized-CID cell and
also leaves the value unchanged. -/
theorem c2_store_idempotent (n : PublicNode) (st : BlockStore) :
    ((n.store st).2.1.store (n.store st).2.2).1 = (n.store st).1 ∧
    ((n.store st).2.1.store (n.store st).2.2).2.1 = (n.store st).2.1 := by
  cases n with
  | File f =>
    cases hf : f.persisted_as <;>
      simp [PublicNode.store, PublicFile.store, BlockStore.putSerializable, hf]
  | Dir d =>
    cases hd : d.persisted_as <;>
      simp [PublicNode.store, PublicDirectory.store, BlockStore.putSerializable, hd]

/-- Claim C8: serializing a `File` node is a pure transformation of its
in-memory fields: it leaves the content store unchanged, its result is the
file's wire record and is independent of the store; a `Dir` node instead
takes the asynchronous path that passes the store along for recursive child
persistence. -/
theorem c8_file_serialize_pure (f : PublicFile) (d : PublicDirectory)
    (st st2 : BlockStore) :
    (PublicNode.async_serialize (PublicNode.File f) st).2 = st ∧
    (PublicNode.async_serialize (PublicNode.File f) st).1 =
      PublicNodeSerializable.File f.to_serializable ∧
    (PublicNode.async_serialize (PublicNode.File f) st).1 =
      (PublicNode.async_serialize (PublicNode.File f) st2).1 ∧
    PublicNode.async_serialize (PublicNode.Dir d) st = d.async_serialize st :=
  ⟨rfl, rfl, rfl, rfl⟩

/-- Claim C4: the `PartialEq` implementation equals pure field-wise node
equality — same variant and equal content fields — for every heap; the
`Rc::ptr_eq` identity fast path never changes the result, and a `File`
node compared with a `Dir` node is always unequal. -/
theorem c4_eq_field_wise (Hf : Nat → PublicFile) (Hd : Nat → PublicDirectory)
    (x y : NodeRef) (a b : Nat) :
    PublicNode.eqImpl Hf Hd x y =
      PublicNode.fieldEqB (nodeRefVal Hf Hd x) (nodeRefVal Hf Hd y) ∧
    PublicNode.eqImpl Hf Hd (NodeRef.File a) (NodeRef.Dir b) = false := by
  constructor
  · cases x with
    | File i =>
      cases y with
      | File j =>
        show (decide (i = j) || (Hf i).fieldEqB (Hf j)) = (Hf i).fieldEqB (Hf j)
        rcases eq_or_ne i j with h | h
        · subst h
          simp [PublicFile.fieldEqB]
        · simp [h]
      | Dir j => rfl
    | Dir i =>
      cases y with
      | File j => rfl
      | Dir j =>
        show (decide (i = j) || (Hd i).fieldEqB (Hd j)) = (Hd i).fieldEqB (Hd j)
        rcases eq_or_ne i j with h | h
        · subst h
          simp [PublicDirectory.fieldEqB]
        · simp [h]
  · rfl

/-- Claim C6: copy-on-write isolation of `upsert_mtime`: when the value a
handle points at is shared (strong count at least two), mutating through one
handle clones the value first, so the value observed through the other,
untouched handle is unchanged. -/
theorem c6_cow_isolation (h : NodeHeap) (r : NodeRef) (t : Int)
    (hsh : 2 ≤ h.countAt r) (hv : h.validAt r) :
    (h.upsert_mtime r t).1.observe r = h.observe r := by
  cases r with
  | File a =>
    have h1 : ¬ h.files.counts a = 1 := by
      simp only [NodeHeap.countAt] at hsh
      omega
    have hne : a ≠ h.files.next := by
      simp only [NodeHeap.validAt] at hv
      omega
    simp [NodeHeap.upsert_mtime, makeMut, h1, NodeHeap.observe,
      Function.update_noteq hne]
  | Dir a =>
    have h1 : ¬ h.dirs.counts a = 1 := by
      simp only [NodeHeap.countAt] at hsh
      omega
    have hne : a ≠ h.dirs.next := by
      simp only [NodeHeap.validAt] at hv
      omega
    simp [NodeHeap.upsert_mtime, makeMut, h1, NodeHeap.observe,
      Function.update_noteq hne]

/-- Witness for C6 at a concrete heap: one file value at address 0 shared by
two handles (count 2); after `upsert_mtime` through one handle the other
still observes the original value. -/
theorem c6_cow_isolation_witness :
    2 ≤ c6Heap.countAt (NodeRef.File 0) ∧
    c6Heap.validAt (NodeRef.File 0) ∧
    (c6Heap.upsert_mtime (NodeRef.File 0) 9).1.observe (NodeRef.File 0) =
      c6Heap.observe (NodeRef.File 0) :=
  ⟨by decide, by simp [NodeHeap.validAt, c6Heap],
   c6_cow_isolation c6Heap (NodeRef.File 0) 9 (by decide)
     (by simp [NodeHeap.validAt, c6Heap])⟩

/-- Claim C7: every value produced by cloning during copy-on-write has a
fresh, unset memoized-CID cell — in particular the node returned by
`update_previous`, and the `Clone` of a file or directory — and once a value
instance's cell is set, `store` never overwrites it: it returns the cached
CID and leaves the cell as it was. -/
theorem c7_fresh_cell_once (n : PublicNode) (cids : List Cid) (st : BlockStore)
    (c : Cid) (f : PublicFile) (d : PublicDirectory) :
    (n.update_previous cids).persisted_as = none ∧
    f.cloneImpl.persisted_as = none ∧
    d.cloneImpl.persisted_as = none ∧
    (n.persisted_as = some c →
      (n.store st).1 = c ∧ (n.store st).2.1.persisted_as = some c) := by
  refine ⟨?_, rfl, rfl, ?_⟩
  · cases n <;> rfl
  · intro hc
    cases n with
    | File g =>
      simp only [PublicNode.persisted_as] at hc
      simp [PublicNode.store, PublicFile.store, hc, PublicNode.persisted_as]
    | Dir g =>
      simp only [PublicNode.persisted_as] at hc
      simp [PublicNode.store, PublicDirectory.store, hc, PublicNode.persisted_as]

/-- Witness for C7 at a concrete node whose cell is set to CID 4: the node
returned by `update_previous` has an unset cell, and `store` returns 4 and
keeps the cell at 4. -/
theorem c7_fresh_cell_once_witness :
    (c7Node.update_previous [1, 2, 1]).persisted_as = none ∧
    (c7Node.store c1Store).1 = 4 ∧
    (c7Node.store c1Store).2.1.persisted_as = some 4 :=
  ⟨(c7_fresh_cell_once c7Node [1, 2, 1] c1Store 4
      ⟨none, ⟨0, 0⟩, 0, ∅⟩ ⟨none, ⟨0, 0⟩, [], ∅⟩).1,
   (c7_fresh_cell_once c7Node [1, 2, 1] c1Store 4
      ⟨none, ⟨0, 0⟩, 0, ∅⟩ ⟨none, ⟨0, 0⟩, [], ∅⟩).2.2.2 rfl⟩

/-- Claim C9: `load` fails with `NotFound` when the store has no entry for
the CID, with `DecodeError` when the stored bytes do not decode as a tagged
node, and otherwise succeeds with the reconstructed node of the variant
matching the stored tag; failures are typed errors, never default node
values. -/
theorem c9_load_errors (cid : Cid) (st : BlockStore) :
    (st.blocks cid = none →
      PublicNode.load cid st = Except.error FsError.NotFound) ∧
    (∀ b, st.blocks cid = some b → decodeBlock b = none →
      PublicNode.load cid st = Except.error FsError.DecodeError) ∧
    (∀ s, st.blocks cid = some (Block.valid s) →
      PublicNode.load cid st = Except.ok (PublicNode.from_serializable s)) ∧
    (∀ fs, (PublicNode.from_serializable
      (PublicNodeSerializable.File fs)).is_file = true) ∧
    (∀ ds, (PublicNode.from_serializable
      (PublicNodeSerializable.Dir ds)).is_dir = true) := by
  refine ⟨?_, ?_, ?_, fun fs => rfl, fun ds => rfl⟩
  · intro hb
    simp [PublicNode.load, BlockStore.getDeserializable, hb]
  · intro b hb hd
    simp [PublicNode.load, BlockStore.getDeserializable, hb, hd]
  · intro s hb
    simp [PublicNode.load, BlockStore.getDeserializable, hb, decodeBlock]

/-- Witness for C9 at concrete stores: an empty store gives `NotFound`, an
undecodable block gives `DecodeError`, and a stored valid file record loads
back as the reconstructed file node. -/
theorem c9_load_errors_witness :
    PublicNode.load 1 c9StoreA = Except.error FsError.NotFound ∧
    PublicNode.load 0 c9StoreA = Except.error FsError.DecodeError ∧
    PublicNode.load 2 c9StoreB = Except.ok (PublicNode.from_serializable
      (PublicNodeSerializable.File ⟨⟨0, 0⟩, 5, ∅⟩)) :=
  ⟨(c9_load_errors 1 c9StoreA).1 rfl,
   (c9_load_errors 0 c9StoreA).2.1 (Block.invalid 9) rfl rfl,
   (c9_load_errors 2 c9StoreB).2.2.1 (PublicNodeSerializable.File ⟨⟨0, 0⟩, 5, ∅⟩) rfl⟩

/-- Claim C1: round-trip — for any node whose memoized-CID cell, if set,
points at its own persisted record (which holds for freshly built and for
already-persisted nodes, children being bare already-persisted CID
references), loading the CID returned by `store` from the resulting store
succeeds and yields a node field-wise equal to the original. -/
theorem c1_load_store_roundtrip (n : PublicNode) (st : BlockStore)
    (hok : ∀ c, n.persisted_as = some c →
      st.blocks c = some (Block.valid n.to_serializable)) :
    PublicNode.load (n.store st).1 (n.store st).2.2 =
      Except.ok (PublicNode.from_serializable n.to_serializable) ∧
    PublicNode.fieldEqB (PublicNode.from_serializable n.to_serializable) n = true := by
  constructor
  · cases n with
    | File f =>
      cases hc : f.persisted_as with
      | some c =>
        have hb := hok c (by simp [PublicNode.persisted_as, hc])
        simp [PublicNode.store, PublicFile.store, hc, PublicNode.load,
          BlockStore.getDeserializable, hb, decodeBlock]
      | none =>
        simp [PublicNode.store, PublicFile.store, hc, BlockStore.putSerializable,
          PublicNode.load, BlockStore.getDeserializable, decodeBlock,
          PublicNode.to_serializable]
    | Dir d =>
      cases hc : d.persisted_as with
      | some c =>
        have hb := hok c (by simp [PublicNode.persisted_as, hc])
        simp [PublicNode.store, PublicDirectory.store, hc, PublicNode.load,
          BlockStore.getDeserializable, hb, decodeBlock]
      | none =>
        simp [PublicNode.store, PublicDirectory.store, hc, BlockStore.putSerializable,
          PublicNode.load, BlockStore.getDeserializable, decodeBlock,
          PublicNode.to_serializable]
  · cases n <;>
      simp [PublicNode.fieldEqB, PublicNode.from_serializable, PublicNode.to_serializable,
        PublicFile.from_serializable, PublicFile.to_serializable, PublicFile.fieldEqB,
        PublicDirectory.from_serializable, PublicDirectory.to_serializable,
        PublicDirectory.fieldEqB]

/-- Witness for C1 at a concrete fresh file node and empty store: storing
yields a CID whose load returns the reconstructed node, and that node is
field-wise equal to the original. -/
theorem c1_load_store_roundtrip_witness :
    PublicNode.load (c1Node.store c1Store).1 (c1Node.store c1Store).2.2 =
      Except.ok (PublicNode.from_serializable c1Node.to_serializable) ∧
    PublicNode.fieldEqB (PublicNode.from_serializable c1Node.to_serializable)
      c1Node = true :=
  c1_load_store_roundtrip c1Node c1Store
    (by intro c h; simp [c1Node, PublicNode.persisted_as] at h)
